import Mathlib

/-!
# Verification of `tests-e2e/success-python-joined/exec.py`

Shallow embedding of the snippet-execution helper script:

```python
# (the script first loads the modules contextlib, io, json, sys)

def run(code, scope):
    with contextlib.redirect_stdout(io.StringIO()) as f:
        exec(code, scope)
    return f.getvalue()

inputs = json.loads(sys.stdin.read())
scope = {}
outputs = [run(code, scope) for code in inputs]

sys.stdout.write(json.dumps(outputs))
```

The snippets that `exec` runs are arbitrary Python; we embed the fragment the
specification's scenarios exercise: newline-separated statements that are
assignments (`x = e`), `print(e)` calls, or bare expression statements, over
integer and single-quoted string literals, variables, and `/` division.
Division by zero raises `ZeroDivisionError`; an unbound variable raises
`NameError`; `1 / n` for nonzero `n` is modelled as integer division (Python
returns a float there; floating point is outside the modelled fragment, and
only the `n = 0` error branch is exercised by the specification).  Indentation
blocks, `del`, and the rest of Python are outside the fragment.

The process state tracks the original standard output (`realOut`), the list of
allocated in-memory `StringIO` buffers (`buffers`, in allocation order), and
where `sys.stdout` currently points (`target`: `none` is the real stream,
`some i` is buffer `i`).  `with contextlib.redirect_stdout(io.StringIO())`
allocates a fresh buffer and repoints the target; per the semantics of the
`with` statement the context manager's exit handler — which restores the saved
target — runs both on normal completion and when the body raises, before the
exception propagates.
-/

namespace ExecPy

/-! ## Values and the shared scope -/

/-- Runtime values of the modelled fragment: Python `int` and `str`. -/
inductive Value where
  | int (n : Int)
  | str (s : String)
deriving DecidableEq

/-- `str(v)`, the text `print` renders for a value. -/
def valueStr : Value → String
  | .int n => toString n
  | .str s => s

/-- The scope dictionary passed to `exec`: a mutable mapping from identifier
to value, modelled as an insertion-ordered association list. -/
abbrev Scope := List (String × Value)

/-- Dictionary lookup `scope[x]`. -/
def Scope.lookup : Scope → String → Option Value
  | [], _ => none
  | (y, v) :: rest, x => if y = x then some v else Scope.lookup rest x

/-- Dictionary update `scope[x] = v` (overwrite in place, else append). -/
def Scope.set : Scope → String → Value → Scope
  | [], x, v => [(x, v)]
  | (y, w) :: rest, x, v =>
    if y = x then (y, v) :: rest else (y, w) :: Scope.set rest x v

/-! ## Errors (uncaught Python exceptions) -/

/-- Exceptions the modelled fragment can raise.  Nothing in the script
catches any of them. -/
inductive Err where
  | syntaxError
  | nameError (x : String)
  | typeError
  | zeroDivisionError
  | jsonDecodeError
deriving DecidableEq

/-- Exit status of the interpreter: `0` on success, `1` when an uncaught
exception terminates the process. -/
def exitCode {α : Type} : Except Err α → Nat
  | .ok _ => 0
  | .error _ => 1

/-! ## Expressions and statements of the embedded fragment -/

/-- Expressions: literals, variables, `/` division. -/
inductive Expr where
  | lit (v : Value)
  | var (x : String)
  | div (a b : Expr)
deriving DecidableEq

/-- Statements: assignment, `print(e)`, bare expression statement. -/
inductive Stmt where
  | assign (x : String) (e : Expr)
  | printStmt (e : Expr)
  | exprStmt (e : Expr)
deriving DecidableEq

/-- Expression evaluation (pure: expressions of the fragment do not print). -/
def evalExpr : Expr → Scope → Except Err Value
  | .lit v, _ => .ok v
  | .var x, sc =>
    match Scope.lookup sc x with
    | some v => .ok v
    | none => .error (.nameError x)
  | .div a b, sc =>
    match evalExpr a sc with
    | .error e => .error e
    | .ok va =>
      match evalExpr b sc with
      | .error e => .error e
      | .ok vb =>
        match va, vb with
        | .int m, .int n =>
          if n = 0 then .error .zeroDivisionError else .ok (.int (m / n))
        | _, _ => .error .typeError

/-! ## Process output state: real stdout, `StringIO` buffers, redirection -/

/-- Output side of the process: text written to the real standard output,
the `StringIO` buffers allocated so far (in allocation order), and where
`sys.stdout` currently points. -/
structure PState where
  realOut : String
  buffers : List String
  target : Option Nat
deriving DecidableEq

/-- The state at interpreter start: nothing written, no buffers,
`sys.stdout` is the real stream. -/
def initState : PState := { realOut := "", buffers := [], target := none }

/-- `sys.stdout.write s`: append `s` to whatever stream `sys.stdout`
currently designates. -/
def writeStream (s : String) (st : PState) : PState :=
  match st.target with
  | none => { st with realOut := st.realOut ++ s }
  | some i => { st with buffers := st.buffers.set i (st.buffers.getD i "" ++ s) }

/-! ## Statement execution (stateful, writes through `sys.stdout`) -/

/-- Execute one statement against the scope and the process output state. -/
def runStmt (stmt : Stmt) (sc : Scope) (st : PState) :
    Except Err Unit × Scope × PState :=
  match stmt with
  | .assign x e =>
    match evalExpr e sc with
    | .ok v => (.ok (), Scope.set sc x v, st)
    | .error er => (.error er, sc, st)
  | .printStmt e =>
    match evalExpr e sc with
    | .ok v => (.ok (), sc, writeStream (valueStr v ++ "\n") st)
    | .error er => (.error er, sc, st)
  | .exprStmt e =>
    match evalExpr e sc with
    | .ok _ => (.ok (), sc, st)
    | .error er => (.error er, sc, st)

/-- Execute a snippet's statements in order, stopping at the first raised
exception (earlier mutations of scope and state persist). -/
def runStmts : List Stmt → Scope → PState → Except Err Unit × Scope × PState
  | [], sc, st => (.ok (), sc, st)
  | stmt :: rest, sc, st =>
    match runStmt stmt sc st with
    | (.ok _, sc', st') => runStmts rest sc' st'
    | (.error e, sc', st') => (.error e, sc', st')

/-! ## Tokenizing and parsing a snippet (the `compile` step inside `exec`) -/

/-- Tokens of the fragment. -/
inductive Tok where
  | ident (s : String)
  | intLit (n : Nat)
  | strLit (s : String)
  | eqSign
  | lparen
  | rparen
  | slash
deriving DecidableEq

def isIdentStart (c : Char) : Bool := c.isAlpha || c = '_'

def isIdentChar (c : Char) : Bool := c.isAlphanum || c = '_'

def digitsToNat (ds : List Char) : Nat :=
  ds.foldl (fun n c => n * 10 + (c.toNat - '0'.toNat)) 0

/-- Tokenize one source line.  Fuel is spent one unit per token while at
least one character is consumed, so `length + 1` fuel suffices.  String
literals are quote-delimited with no escape sequences (none occur in the
modelled fragment). -/
def tokenize : Nat → List Char → Option (List Tok)
  | 0, _ => none
  | _, [] => some []
  | fuel + 1, c :: cs =>
    if c = ' ' then tokenize fuel cs
    else if c = '=' then (tokenize fuel cs).map (Tok.eqSign :: ·)
    else if c = '(' then (tokenize fuel cs).map (Tok.lparen :: ·)
    else if c = ')' then (tokenize fuel cs).map (Tok.rparen :: ·)
    else if c = '/' then (tokenize fuel cs).map (Tok.slash :: ·)
    else if c = '\'' || c = '"' then
      let body := cs.takeWhile (· ≠ c)
      match cs.dropWhile (· ≠ c) with
      | _ :: rest => (tokenize fuel rest).map (Tok.strLit (String.mk body) :: ·)
      | [] => none
    else if c.isDigit then
      let ds := (c :: cs).takeWhile Char.isDigit
      (tokenize fuel ((c :: cs).dropWhile Char.isDigit)).map (Tok.intLit (digitsToNat ds) :: ·)
    else if isIdentStart c then
      let ids := (c :: cs).takeWhile isIdentChar
      (tokenize fuel ((c :: cs).dropWhile isIdentChar)).map (Tok.ident (String.mk ids) :: ·)
    else none

/-- An atomic expression from one token. -/
def parseAtom : Tok → Option Expr
  | .intLit n => some (.lit (.int n))
  | .strLit s => some (.lit (.str s))
  | .ident x => some (.var x)
  | _ => none

/-- Fold a left-associative chain `atom / atom / ...` onto `acc`. -/
def parseDivChain : Expr → List Tok → Option Expr
  | acc, [] => some acc
  | acc, .slash :: t :: rest =>
    match parseAtom t with
    | some a => parseDivChain (.div acc a) rest
    | none => none
  | _, _ => none

/-- Parse a whole token list as one expression. -/
def parseExprToks : List Tok → Option Expr
  | [] => none
  | t :: rest =>
    match parseAtom t with
    | some a => parseDivChain a rest
    | none => none

/-- Parse one line as a statement: `x = e`, `print(e)`, or a bare
expression statement. -/
def parseStmtToks : List Tok → Option Stmt
  | .ident x :: .eqSign :: rest => (parseExprToks rest).map (Stmt.assign x)
  | .ident p :: .lparen :: rest =>
    if p = "print" then
      match rest.getLast? with
      | some .rparen => (parseExprToks rest.dropLast).map Stmt.printStmt
      | _ => none
    else none
  | ts => (parseExprToks ts).map Stmt.exprStmt

/-- Split a character list on newlines. -/
def splitLines : List Char → List (List Char)
  | [] => [[]]
  | c :: cs =>
    if c = '\n' then [] :: splitLines cs
    else
      match splitLines cs with
      | [] => [[c]]
      | l :: ls => (c :: l) :: ls

/-- A line of only whitespace (ignored by the tokenizer, as in Python). -/
def isBlank (l : List Char) : Bool := l.all (fun c => c = ' ' || c = '\t')

def parseLine (l : List Char) : Option Stmt :=
  match tokenize (l.length + 1) l with
  | some ts => parseStmtToks ts
  | none => none

/-- Compile a snippet string into statements; `none` is a `SyntaxError`.
The empty snippet compiles to no statements, as `exec("")` does. -/
def parseSnippet (s : String) : Option (List Stmt) :=
  ((splitLines s.toList).filter (fun l => !isBlank l)).mapM parseLine

/-! ## JSON values, `json.loads`, `json.dumps`, Python iteration -/

/-- A parsed JSON value.  Numbers are modelled as integers: floating point
is outside the model (no scenario uses a fractional number), so the parser
rejects fraction and exponent parts. -/
inductive JValue where
  | null
  | boolVal (b : Bool)
  | num (n : Int)
  | str (s : String)
  | arr (xs : List JValue)
  | obj (kvs : List (String × JValue))

/-- JSON whitespace. -/
def isJsonWs (c : Char) : Bool := c = ' ' || c = '\t' || c = '\n' || c = '\r'

def skipWs (cs : List Char) : List Char := cs.dropWhile isJsonWs

def hexVal (c : Char) : Option Nat :=
  if c.isDigit then some (c.toNat - '0'.toNat)
  else if 'a' ≤ c ∧ c ≤ 'f' then some (c.toNat - 'a'.toNat + 10)
  else if 'A' ≤ c ∧ c ≤ 'F' then some (c.toNat - 'A'.toNat + 10)
  else none

/-- Body of a JSON string after the opening quote, with the standard escape
sequences (`\uXXXX` covers the basic multilingual plane; surrogate pairing
is outside the model). -/
def parseJStrBody : Nat → List Char → Option (List Char × List Char)
  | 0, _ => none
  | _, [] => none
  | fuel + 1, c :: cs =>
    if c = '"' then some ([], cs)
    else if c = '\\' then
      match cs with
      | [] => none
      | e :: cs' =>
        if e = 'u' then
          match cs' with
          | a :: b :: c2 :: d :: cs'' =>
            match hexVal a, hexVal b, hexVal c2, hexVal d with
            | some ha, some hb, some hc, some hd =>
              (parseJStrBody fuel cs'').map fun (body, rest) =>
                (Char.ofNat (((ha * 16 + hb) * 16 + hc) * 16 + hd) :: body, rest)
            | _, _, _, _ => none
          | _ => none
        else
          let dec : Option Char :=
            if e = '"' then some '"'
            else if e = '\\' then some '\\'
            else if e = '/' then some '/'
            else if e = 'n' then some '\n'
            else if e = 't' then some '\t'
            else if e = 'r' then some '\r'
            else if e = 'b' then some (Char.ofNat 8)
            else if e = 'f' then some (Char.ofNat 12)
            else none
          match dec with
          | some d => (parseJStrBody fuel cs').map fun (body, rest) => (d :: body, rest)
          | none => none
    else (parseJStrBody fuel cs).map fun (body, rest) => (c :: body, rest)

/-- Integer part of a JSON number (fractions and exponents rejected:
floating point is outside the model). -/
def parseJNum (cs : List Char) : Option (Int × List Char) :=
  let (sign, cs') : Int × List Char :=
    match cs with
    | '-' :: rest => (-1, rest)
    | _ => (1, cs)
  let ds := cs'.takeWhile Char.isDigit
  let rest := cs'.dropWhile Char.isDigit
  if ds = [] then none
  else
    match rest with
    | '.' :: _ => none
    | 'e' :: _ => none
    | 'E' :: _ => none
    | _ => some (sign * (digitsToNat ds : Int), rest)

mutual

/-- Parse one JSON value (leading whitespace allowed). -/
def parseJVal : Nat → List Char → Option (JValue × List Char)
  | 0, _ => none
  | fuel + 1, cs =>
    match skipWs cs with
    | [] => none
    | c :: rest =>
      if c = '"' then
        (parseJStrBody fuel rest).map fun (body, rest') => (.str (String.mk body), rest')
      else if c = '[' then
        match skipWs rest with
        | ']' :: rest' => some (.arr [], rest')
        | _ => (parseJArrElems fuel rest).map fun (xs, rest') => (.arr xs, rest')
      else if c = '{' then
        match skipWs rest with
        | '}' :: rest' => some (.obj [], rest')
        | _ => (parseJObjMembers fuel rest).map fun (kvs, rest') => (.obj kvs, rest')
      else if c = 't' then
        match rest with
        | 'r' :: 'u' :: 'e' :: rest' => some (.boolVal true, rest')
        | _ => none
      else if c = 'f' then
        match rest with
        | 'a' :: 'l' :: 's' :: 'e' :: rest' => some (.boolVal false, rest')
        | _ => none
      else if c = 'n' then
        match rest with
        | 'u' :: 'l' :: 'l' :: rest' => some (.null, rest')
        | _ => none
      else
        (parseJNum (c :: rest)).map fun (n, rest') => (.num n, rest')

/-- One or more comma-separated array elements, then `]`. -/
def parseJArrElems : Nat → List Char → Option (List JValue × List Char)
  | 0, _ => none
  | fuel + 1, cs =>
    match parseJVal fuel cs with
    | none => none
    | some (v, rest) =>
      match skipWs rest with
      | ',' :: rest' =>
        (parseJArrElems fuel rest').map fun (xs, rest'') => (v :: xs, rest'')
      | ']' :: rest' => some ([v], rest')
      | _ => none

/-- One or more comma-separated `"key": value` members, then `}`. -/
def parseJObjMembers : Nat → List Char → Option (List (String × JValue) × List Char)
  | 0, _ => none
  | fuel + 1, cs =>
    match skipWs cs with
    | '"' :: rest =>
      match parseJStrBody fuel rest with
      | none => none
      | some (key, rest') =>
        match skipWs rest' with
        | ':' :: rest'' =>
          match parseJVal fuel rest'' with
          | none => none
          | some (v, rest3) =>
            match skipWs rest3 with
            | ',' :: rest4 =>
              (parseJObjMembers fuel rest4).map fun (kvs, rest5) =>
                ((String.mk key, v) :: kvs, rest5)
            | '}' :: rest4 => some ([(String.mk key, v)], rest4)
            | _ => none
        | _ => none
    | _ => none

end

/-- `json.loads`: parse the whole input as one JSON value; anything else is
a `json.decoder.JSONDecodeError`. -/
def jsonLoads (s : String) : Except Err JValue :=
  match parseJVal (2 * s.length + 8) s.toList with
  | some (v, rest) => if skipWs rest = [] then .ok v else .error .jsonDecodeError
  | none => .error .jsonDecodeError

/-- Python iteration over a parsed JSON value, as the list comprehension
`for code in inputs` performs it: a list yields its elements, a string
yields its characters as one-character strings, a dict yields its keys;
numbers, booleans and `None` are not iterable (`TypeError`). -/
def pyIter : JValue → Except Err (List JValue)
  | .arr xs => .ok xs
  | .str s => .ok (s.toList.map fun c => .str (String.mk [c]))
  | .obj kvs => .ok (kvs.map fun kv => JValue.str kv.1)
  | _ => .error .typeError

def hexDigit (n : Nat) : Char :=
  if n < 10 then Char.ofNat ('0'.toNat + n) else Char.ofNat ('a'.toNat + (n - 10))

/-- `json.dumps` escaping of one character (default `ensure_ascii=True`;
`\uXXXX` for the basic multilingual plane). -/
def escapeChar (c : Char) : List Char :=
  if c = '"' then ['\\', '"']
  else if c = '\\' then ['\\', '\\']
  else if c = '\n' then ['\\', 'n']
  else if c = '\t' then ['\\', 't']
  else if c = '\r' then ['\\', 'r']
  else if c.toNat = 8 then ['\\', 'b']
  else if c.toNat = 12 then ['\\', 'f']
  else if c.toNat < 32 || 126 < c.toNat then
    ['\\', 'u', hexDigit (c.toNat / 4096 % 16), hexDigit (c.toNat / 256 % 16),
      hexDigit (c.toNat / 16 % 16), hexDigit (c.toNat % 16)]
  else [c]

def dumpStrChars (s : String) : List Char :=
  '"' :: (s.toList.flatMap escapeChar) ++ ['"']

/-- Join with a separator. -/
def joinSep (sep : List Char) : List (List Char) → List Char
  | [] => []
  | [x] => x
  | x :: xs => x ++ sep ++ joinSep sep xs

/-- `json.dumps` of the list of captured output strings (default `", "`
item separator). -/
def jsonDumps (outs : List String) : String :=
  String.mk ('[' :: joinSep [',', ' '] (outs.map dumpStrChars) ++ [']'])

/-! ## `exec`, `run`, and the module body -/

/-- `exec(code, scope)`: `code` must be text (else `TypeError`); it is
compiled (`SyntaxError` on failure) and its statements executed against the
scope, printing through whatever `sys.stdout` currently designates. -/
def pyExec (code : JValue) (sc : Scope) (st : PState) :
    Except Err Unit × Scope × PState :=
  match code with
  | .str s =>
    match parseSnippet s with
    | some stmts => runStmts stmts sc st
    | none => (.error .syntaxError, sc, st)
  | _ => (.error .typeError, sc, st)

instance {ε α : Type} [DecidableEq ε] [DecidableEq α] : DecidableEq (Except ε α) := fun x y =>
  match x, y with
  | .error e, .error f => decidable_of_iff (e = f) (by simp)
  | .ok a, .ok b => decidable_of_iff (a = b) (by simp)
  | .error _, .ok _ => isFalse (by simp)
  | .ok _, .error _ => isFalse (by simp)

/-- Result of one `run(code, scope)` call: the captured text (or the
uncaught exception), the scope (mutated in place), and the process output
state. -/
structure RunOut where
  result : Except Err String
  scope : Scope
  state : PState
deriving DecidableEq

/--
```python
def run(code, scope):
    with contextlib.redirect_stdout(io.StringIO()) as f:
        exec(code, scope)
    return f.getvalue()
```
Entering the `with` block allocates a fresh empty buffer and points
`sys.stdout` at it; the context manager's exit handler restores the saved
target on both the normal path and the exception path (the `with`
statement runs it before a raised exception propagates). -/
def run (code : JValue) (sc : Scope) (st : PState) : RunOut :=
  match pyExec code sc { st with buffers := st.buffers ++ [""], target := some st.buffers.length } with
  | (.ok _, sc', st') =>
    { result := .ok (st'.buffers.getD st.buffers.length "")
      scope := sc'
      state := { st' with target := st.target } }
  | (.error e, sc', st') =>
    { result := .error e, scope := sc', state := { st' with target := st.target } }

/-- Observable ordering events of one process run. -/
inductive Event where
  | readStdin
  | parsedInput
  | execSnippet (i : Nat)
  | writeOutput
deriving DecidableEq

/-- Result of the `outputs = [run(code, scope) for code in inputs]`
comprehension: the outputs (or the uncaught exception), final scope and
state, and the trace of snippet executions. -/
structure BatchOut where
  result : Except Err (List String)
  scope : Scope
  state : PState
  trace : List Event
deriving DecidableEq

/-- The comprehension: run each snippet left to right against the single
shared scope, collecting outputs in order; a raised exception aborts the
batch. `i` numbers the snippets for the trace. -/
def runAll : List JValue → Nat → Scope → PState → BatchOut
  | [], _, sc, st => { result := .ok [], scope := sc, state := st, trace := [] }
  | code :: rest, i, sc, st =>
    match run code sc st with
    | { result := .ok out, scope := sc', state := st' } =>
      let b := runAll rest (i + 1) sc' st'
      { result :=
          match b.result with
          | .ok outs => .ok (out :: outs)
          | .error e => .error e
        scope := b.scope, state := b.state, trace := .execSnippet i :: b.trace }
    | { result := .error e, scope := sc', state := st' } =>
      { result := .error e, scope := sc', state := st', trace := [.execSnippet i] }

/--
```python
inputs = json.loads(sys.stdin.read())
scope = {}
outputs = [run(code, scope) for code in inputs]
sys.stdout.write(json.dumps(outputs))
```
An uncaught exception anywhere aborts the process before the final write. -/
def mainRun (stdin : String) : BatchOut :=
  match jsonLoads stdin with
  | .error e =>
    { result := .error e, scope := [], state := initState, trace := [.readStdin] }
  | .ok v =>
    match pyIter v with
    | .error e =>
      { result := .error e, scope := [], state := initState
        trace := [.readStdin, .parsedInput] }
    | .ok items =>
      let b := runAll items 0 [] initState
      match b.result with
      | .ok outs =>
        { result := .ok outs, scope := b.scope
          state := writeStream (jsonDumps outs) b.state
          trace := [.readStdin, .parsedInput] ++ b.trace ++ [.writeOutput] }
      | .error e =>
        { result := .error e, scope := b.scope, state := b.state
          trace := [.readStdin, .parsedInput] ++ b.trace }

/-! ## Pure per-snippet semantics (specification side)

The stateful pipeline above follows the source.  The definitions below give
the buffer-free meaning of one snippet — the text it prints and the scope it
leaves — used to state that each captured output is exactly its snippet's
own text (claims about freshness of the capture buffers). -/

/-- One statement, pure: result, text printed by this statement, new scope. -/
def runStmtP (stmt : Stmt) (sc : Scope) : Except Err Unit × String × Scope :=
  match stmt with
  | .assign x e =>
    match evalExpr e sc with
    | .ok v => (.ok (), "", Scope.set sc x v)
    | .error er => (.error er, "", sc)
  | .printStmt e =>
    match evalExpr e sc with
    | .ok v => (.ok (), valueStr v ++ "\n", sc)
    | .error er => (.error er, "", sc)
  | .exprStmt e =>
    match evalExpr e sc with
    | .ok _ => (.ok (), "", sc)
    | .error er => (.error er, "", sc)

/-- Statement list, pure: concatenated printed text, final scope. -/
def runStmtsP : List Stmt → Scope → Except Err Unit × String × Scope
  | [], sc => (.ok (), "", sc)
  | stmt :: rest, sc =>
    match runStmtP stmt sc with
    | (.ok _, out, sc') =>
      let (r, out', sc'') := runStmtsP rest sc'
      (r, out ++ out', sc'')
    | (.error e, out, sc') => (.error e, out, sc')

/-- `exec`, pure: result, printed text, final scope. -/
def pyExecP (code : JValue) (sc : Scope) : Except Err Unit × String × Scope :=
  match code with
  | .str s =>
    match parseSnippet s with
    | some stmts => runStmtsP stmts sc
    | none => (.error .syntaxError, "", sc)
  | _ => (.error .typeError, "", sc)

/-- The scope a snippet leaves behind (mutations persist even when the
snippet raises midway). -/
def scopeStep (code : JValue) (sc : Scope) : Scope := (pyExecP code sc).2.2

/-- The scope in which snippet `i` starts: the empty dictionary transformed
by snippets `0 .. i-1`. -/
def scopeAt (items : List JValue) (i : Nat) : Scope :=
  (items.take i).foldl (fun sc c => scopeStep c sc) []

/-- The pure batch: the comprehension's meaning without buffers. -/
def runAllP : List JValue → Scope → Except Err (List String) × Scope
  | [], sc => (.ok [], sc)
  | code :: rest, sc =>
    match pyExecP code sc with
    | (.ok _, out, sc') =>
      let (r, sc'') := runAllP rest sc'
      (match r with | .ok outs => .ok (out :: outs) | .error e => .error e, sc'')
    | (.error e, _, sc') => (.error e, sc')

/-- The scope after snippets `0 .. k-1` of `items`, starting from `sc`. -/
def scopeFold (items : List JValue) (sc : Scope) (k : Nat) : Scope :=
  (items.take k).foldl (fun s c => scopeStep c s) sc

/-! ## Helper lemmas -/

theorem list_set_getD {α : Type} (l : List α) (i : Nat) (d : α) :
    l.set i (l.getD i d) = l := by
  induction l generalizing i with
  | nil => simp
  | cons a t ih =>
    cases i with
    | zero => simp [List.getD]
    | succ n =>
      simp only [List.getD_cons_succ, List.set_cons_succ]
      rw [ih]

theorem list_getD_set_self {α : Type} (l : List α) (i : Nat) (x d : α) (h : i < l.length) :
    (l.set i x).getD i d = x := by
  rw [List.getD_eq_getElem?_getD, List.getElem?_set_self h]
  rfl

theorem list_append_singleton_set {α : Type} (l : List α) (x y : α) :
    (l ++ [x]).set l.length y = l ++ [y] := by
  induction l with
  | nil => rfl
  | cons a t ih =>
    simp only [List.cons_append, List.length_cons, List.set_cons_succ]
    rw [ih]

theorem list_append_singleton_getD {α : Type} (l : List α) (x d : α) :
    (l ++ [x]).getD l.length d = x := by
  induction l with
  | nil => rfl
  | cons a t ih =>
    simp only [List.cons_append, List.length_cons, List.getD_cons_succ]
    exact ih

/-- Writing the empty string anywhere changes nothing. -/
theorem writeStream_empty (st : PState) : writeStream "" st = st := by
  rcases st with ⟨ro, bufs, tgt⟩
  cases tgt with
  | none => simp only [writeStream, String.append_empty]
  | some i =>
    simp only [writeStream, String.append_empty]
    rw [list_set_getD]

/-- Consecutive writes to the same stream concatenate. -/
theorem writeStream_append (a b : String) (st : PState) :
    writeStream (a ++ b) st = writeStream b (writeStream a st) := by
  rcases st with ⟨ro, bufs, tgt⟩
  cases tgt with
  | none => simp [writeStream, String.append_assoc]
  | some i =>
    by_cases h : i < bufs.length
    · simp only [writeStream]
      rw [list_getD_set_self bufs i _ "" h, List.set_set, String.append_assoc]
    · have hle := Nat.le_of_not_lt h
      simp [writeStream, List.set_eq_of_length_le hle]

/-- One statement: the stateful execution is the pure one with the printed
text written through `sys.stdout`. -/
theorem runStmt_eq (stmt : Stmt) (sc : Scope) (st : PState) :
    runStmt stmt sc st =
      ((runStmtP stmt sc).1, (runStmtP stmt sc).2.2,
        writeStream (runStmtP stmt sc).2.1 st) := by
  cases stmt with
  | assign x e => cases h : evalExpr e sc <;> simp [runStmt, runStmtP, h, writeStream_empty]
  | printStmt e => cases h : evalExpr e sc <;> simp [runStmt, runStmtP, h, writeStream_empty]
  | exprStmt e => cases h : evalExpr e sc <;> simp [runStmt, runStmtP, h, writeStream_empty]

/-- A statement list: the stateful execution is the pure one with the
concatenated printed text written through `sys.stdout`. -/
theorem runStmts_eq (stmts : List Stmt) (sc : Scope) (st : PState) :
    runStmts stmts sc st =
      ((runStmtsP stmts sc).1, (runStmtsP stmts sc).2.2,
        writeStream (runStmtsP stmts sc).2.1 st) := by
  induction stmts generalizing sc st with
  | nil => simp [runStmts, runStmtsP, writeStream_empty]
  | cons stmt rest ih =>
    have hst := runStmt_eq stmt sc st
    rcases h : runStmtP stmt sc with ⟨r, out, sc'⟩
    rw [h] at hst
    cases r with
    | ok u =>
      rcases h2 : runStmtsP rest sc' with ⟨r2, out2, sc''⟩
      have ih2 := ih sc' (writeStream out st)
      rw [h2] at ih2
      simp only [runStmts, hst, runStmtsP, h, h2, ih2, writeStream_append]
    | error e =>
      simp only [runStmts, hst, runStmtsP, h]

/-- `exec`: the stateful execution is the pure one with the printed text
written through `sys.stdout`. -/
theorem pyExec_eq (code : JValue) (sc : Scope) (st : PState) :
    pyExec code sc st =
      ((pyExecP code sc).1, (pyExecP code sc).2.2,
        writeStream (pyExecP code sc).2.1 st) := by
  cases code with
  | str s =>
    cases h : parseSnippet s <;> simp [pyExec, pyExecP, h, runStmts_eq, writeStream_empty]
  | null => simp [pyExec, pyExecP, writeStream_empty]
  | boolVal b => simp [pyExec, pyExecP, writeStream_empty]
  | num n => simp [pyExec, pyExecP, writeStream_empty]
  | arr xs => simp [pyExec, pyExecP, writeStream_empty]
  | obj kvs => simp [pyExec, pyExecP, writeStream_empty]

/-- One `run` call: it allocates exactly one fresh buffer, which ends up
holding exactly the snippet's own printed text; the real output and the
redirection target are left as they were — on the success path and on the
exception path alike. -/
theorem run_eq (code : JValue) (sc : Scope) (st : PState) :
    run code sc st =
      { result :=
          match (pyExecP code sc).1 with
          | .ok _ => .ok (pyExecP code sc).2.1
          | .error e => .error e
        scope := (pyExecP code sc).2.2
        state := { realOut := st.realOut
                   buffers := st.buffers ++ [(pyExecP code sc).2.1]
                   target := st.target } } := by
  have hw : ∀ out : String,
      writeStream out { st with buffers := st.buffers ++ [""], target := some st.buffers.length } =
        { st with buffers := st.buffers ++ [out], target := some st.buffers.length } := by
    intro out
    simp [writeStream, list_append_singleton_getD, list_append_singleton_set]
  unfold run
  rw [pyExec_eq]
  rcases h : pyExecP code sc with ⟨r, out, sc'⟩
  simp only [h]
  cases r with
  | ok u =>
    simp only [hw out, list_append_singleton_getD]
  | error e =>
    simp only [hw out]

/-- The batch: result and final scope agree with the pure batch, and the
real output and the redirection target are untouched (every snippet prints
into its own buffer). -/
theorem runAll_eq (items : List JValue) (i : Nat) (sc : Scope) (st : PState) :
    (runAll items i sc st).result = (runAllP items sc).1 ∧
    (runAll items i sc st).scope = (runAllP items sc).2 ∧
    (runAll items i sc st).state.realOut = st.realOut ∧
    (runAll items i sc st).state.target = st.target := by
  induction items generalizing i sc st with
  | nil => simp [runAll, runAllP]
  | cons code rest ih =>
    have hr := run_eq code sc st
    rcases hp : pyExecP code sc with ⟨r, out, sc'⟩
    rw [hp] at hr
    cases r with
    | ok u =>
      obtain ⟨e1, e2, e3, e4⟩ :=
        ih (i + 1) sc' { realOut := st.realOut, buffers := st.buffers ++ [out], target := st.target }
      rcases h2 : runAllP rest sc' with ⟨r2, sc2⟩
      rw [h2] at e1 e2
      simp only [runAll, hr, runAllP, hp, h2, e1, e2, e3, e4]
      exact ⟨trivial, trivial, trivial, trivial⟩
    | error e =>
      simp only [runAll, hr, runAllP, hp]
      exact ⟨trivial, trivial, trivial, trivial⟩

/-- A successful batch executes each snippet exactly once, in input order. -/
theorem runAll_trace_ok (items : List JValue) (i : Nat) (sc : Scope) (st : PState)
    (outs : List String) (h : (runAll items i sc st).result = .ok outs) :
    (runAll items i sc st).trace = (List.range' i items.length).map Event.execSnippet := by
  induction items generalizing i sc st outs with
  | nil => simp [runAll]
  | cons code rest ih =>
    have hr := run_eq code sc st
    rcases hp : pyExecP code sc with ⟨r, out, sc'⟩
    rw [hp] at hr
    cases r with
    | ok u =>
      simp only [runAll, hr] at h ⊢
      rcases h2 : (runAll rest (i + 1) sc'
          { realOut := st.realOut, buffers := st.buffers ++ [out], target := st.target }).result with
        e | outs'
      · rw [h2] at h
        simp at h
      · rw [ih (i + 1) sc' _ outs' h2]
        simp [List.range'_succ]
    | error e =>
      simp only [runAll, hr] at h
      simp at h

/-- A successful pure batch has one output per snippet: the text snippet `k`
prints in the scope accumulated from snippets `0 .. k-1`. -/
theorem runAllP_ok (items : List JValue) (sc : Scope) (outs : List String)
    (h : (runAllP items sc).1 = .ok outs) :
    outs.length = items.length ∧
    ∀ k, k < items.length →
      outs.getD k "" = (pyExecP (items.getD k JValue.null) (scopeFold items sc k)).2.1 := by
  induction items generalizing sc outs with
  | nil =>
    simp only [runAllP] at h
    cases h
    simp
  | cons code rest ih =>
    rcases hp : pyExecP code sc with ⟨r, out, sc'⟩
    cases r with
    | error e =>
      rw [runAllP, hp] at h
      simp at h
    | ok u =>
      rcases h2 : runAllP rest sc' with ⟨r2, sc2⟩
      rw [runAllP, hp] at h
      simp only [h2] at h
      cases r2 with
      | error e => simp at h
      | ok outs' =>
        simp only [Except.ok.injEq] at h
        obtain ⟨hl, hk⟩ := ih sc' outs' (by rw [h2])
        subst h
        refine ⟨by simp [hl], ?_⟩
        intro k hklt
        cases k with
        | zero => simp [scopeFold, hp]
        | succ n =>
          have hsf : scopeFold (code :: rest) sc (n + 1) = scopeFold rest sc' n := by
            simp [scopeFold, List.take_succ_cons, scopeStep, hp]
          simp only [List.getD_cons_succ, hsf]
          exact hk n (by simpa using hklt)

/-! ## Scope lemmas -/

theorem scope_lookup_set (sc : Scope) (y : String) (v : Value) (x : String) :
    Scope.lookup (Scope.set sc y v) x = if y = x then some v else Scope.lookup sc x := by
  induction sc with
  | nil =>
    simp only [Scope.set, Scope.lookup]
  | cons p rest ih =>
    rcases p with ⟨z, w⟩
    simp only [Scope.set]
    by_cases hzy : z = y
    · subst hzy
      simp only [if_pos rfl, Scope.lookup]
      by_cases hzx : z = x <;> simp [hzx]
    · simp only [if_neg hzy, Scope.lookup]
      by_cases hzx : z = x
      · subst hzx
        have hyx : ¬ y = z := fun hyz => hzy hyz.symm
        simp [hyx]
      · simp [hzx, ih]

theorem lookup_isSome_set (sc : Scope) (y x : String) (v : Value)
    (h : (Scope.lookup sc x).isSome) : (Scope.lookup (Scope.set sc y v) x).isSome := by
  rw [scope_lookup_set]
  by_cases hyx : y = x <;> simp [hyx, h]

/-- A statement never unbinds a name. -/
theorem runStmtP_scope_mono (stmt : Stmt) (sc : Scope) (x : String)
    (h : (Scope.lookup sc x).isSome) :
    (Scope.lookup (runStmtP stmt sc).2.2 x).isSome := by
  cases stmt with
  | assign y e =>
    cases he : evalExpr e sc with
    | ok v => simpa [runStmtP, he] using lookup_isSome_set sc y x v h
    | error er => simpa [runStmtP, he] using h
  | printStmt e => cases he : evalExpr e sc <;> simpa [runStmtP, he] using h
  | exprStmt e => cases he : evalExpr e sc <;> simpa [runStmtP, he] using h

/-- A snippet body never unbinds a name. -/
theorem runStmtsP_scope_mono (stmts : List Stmt) (sc : Scope) (x : String)
    (h : (Scope.lookup sc x).isSome) :
    (Scope.lookup (runStmtsP stmts sc).2.2 x).isSome := by
  induction stmts generalizing sc with
  | nil => simpa [runStmtsP] using h
  | cons stmt rest ih =>
    rcases hs : runStmtP stmt sc with ⟨r, out, sc'⟩
    have h' : (Scope.lookup sc' x).isSome := by
      have hm := runStmtP_scope_mono stmt sc x h
      rw [hs] at hm
      exact hm
    cases r with
    | ok u =>
      rcases h2 : runStmtsP rest sc' with ⟨r2, out2, sc''⟩
      have hm2 := ih sc' h'
      rw [h2] at hm2
      simpa [runStmtsP, hs, h2] using hm2
    | error e => simpa [runStmtsP, hs] using h'

/-- A snippet execution never unbinds a name. -/
theorem scopeStep_mono (code : JValue) (sc : Scope) (x : String)
    (h : (Scope.lookup sc x).isSome) : (Scope.lookup (scopeStep code sc) x).isSome := by
  cases code with
  | str s =>
    cases hp : parseSnippet s with
    | none => simpa [scopeStep, pyExecP, hp] using h
    | some stmts => simpa [scopeStep, pyExecP, hp] using runStmtsP_scope_mono stmts sc x h
  | null => simpa [scopeStep, pyExecP] using h
  | boolVal b => simpa [scopeStep, pyExecP] using h
  | num n => simpa [scopeStep, pyExecP] using h
  | arr xs => simpa [scopeStep, pyExecP] using h
  | obj kvs => simpa [scopeStep, pyExecP] using h

/-- A name bound when snippet `i` starts is still bound when snippet `i + 1`
starts. -/
theorem scopeAt_succ_isSome (items : List JValue) (i : Nat) (x : String)
    (h : (Scope.lookup (scopeAt items i) x).isSome) :
    (Scope.lookup (scopeAt items (i + 1)) x).isSome := by
  have ht : scopeAt items (i + 1) =
      (items[i]?.toList).foldl (fun s c => scopeStep c s) (scopeAt items i) := by
    simp only [scopeAt, List.take_succ, List.foldl_append]
  rw [ht]
  cases hi : items[i]? with
  | none => simpa using h
  | some c => simpa using scopeStep_mono c (scopeAt items i) x h

/-- Binding visibility persists to all later snippets. -/
theorem scopeAt_le_isSome (items : List JValue) (j i : Nat) (x : String) (hji : j ≤ i)
    (h : (Scope.lookup (scopeAt items j) x).isSome) :
    (Scope.lookup (scopeAt items i) x).isSome := by
  induction hji with
  | refl => exact h
  | step h' ih => exact scopeAt_succ_isSome items _ x ih

/-! ## Claims -/

/-- C1: in a successful batch started from the script's initial scope and
process state, `output[k]` equals exactly the text snippet `k` prints when
executed in the scope left behind by snippets `0 .. k-1`, and nothing else:
each execution captures into a fresh buffer, so no text captured for an
earlier snippet appears in a later snippet's output. -/
theorem C1_output_is_own_text (items : List JValue) (outs : List String)
    (sc : Scope) (st : PState) (tr : List Event)
    (h : runAll items 0 [] initState =
      { result := .ok outs, scope := sc, state := st, trace := tr })
    (k : Nat) (hk : k < items.length) :
    outs.getD k "" = (pyExecP (items.getD k JValue.null) (scopeAt items k)).2.1 := by
  have h1 := (runAll_eq items 0 [] initState).1
  rw [h] at h1
  exact (runAllP_ok items [] outs h1.symm).2 k hk

theorem C1_witness :
    (["a\n", "b\n"] : List String).getD 1 "" =
      (pyExecP (([JValue.str "print('a')", JValue.str "print('b')"] : List JValue).getD 1 JValue.null)
        (scopeAt [JValue.str "print('a')", JValue.str "print('b')"] 1)).2.1 :=
  C1_output_is_own_text [JValue.str "print('a')", JValue.str "print('b')"]
    ["a\n", "b\n"] []
    { realOut := "", buffers := ["a\n", "b\n"], target := none }
    [Event.execSnippet 0, Event.execSnippet 1] (by decide) 1 (by decide)

/-- C2: for every valid input, the output sequence has the same length as
the input sequence; in particular the empty input array yields the empty
output array (and the script then writes `[]`). -/
theorem C2_length_preserved :
    (∀ items i sc st outs, (runAll items i sc st).result = .ok outs →
      outs.length = items.length) ∧
    (mainRun "[]").result = .ok [] ∧ (mainRun "[]").state.realOut = "[]" := by
  refine ⟨?_, by decide, by decide⟩
  intro items i sc st outs h
  have h1 := (runAll_eq items i sc st).1
  rw [h] at h1
  exact (runAllP_ok items sc outs h1.symm).1

theorem C2_witness :
    (["1\n"] : List String).length = ([JValue.str "print(1)"] : List JValue).length :=
  C2_length_preserved.1 [JValue.str "print(1)"] 0 [] initState ["1\n"] (by decide)

/-- C3: one scope is created at process start and the same scope is
threaded through every snippet execution, so a binding present when
snippet `j + 1` starts (i.e. made by snippets `0 .. j`) is still visible
to every later snippet `i > j`; the scenario `["x = 5", "print(x)"]`
produces `["", "5\n"]`. -/
theorem C3_shared_scope :
    (∀ items j i x, j < i →
      (Scope.lookup (scopeAt items (j + 1)) x).isSome →
      (Scope.lookup (scopeAt items i) x).isSome) ∧
    (mainRun "[\"x = 5\", \"print(x)\"]").result = .ok ["", "5\n"] := by
  refine ⟨?_, by decide⟩
  intro items j i x hji h
  exact scopeAt_le_isSome items (j + 1) i x hji h

theorem C3_witness :
    (Scope.lookup (scopeAt [JValue.str "x = 5", JValue.str "print(x)"] 2) "x").isSome :=
  C3_shared_scope.1 [JValue.str "x = 5", JValue.str "print(x)"] 0 2 "x" (by decide) (by decide)

/-- C4: on any failure — malformed JSON on standard input or a snippet
raising during execution — nothing is caught: the process exits with a
non-zero status, standard output stays empty (no partial output), and the
error propagates unchanged from where it arose. -/
theorem C4_failure_aborts :
    (∀ stdin e, (mainRun stdin).result = .error e →
      (mainRun stdin).state.realOut = "" ∧ exitCode (mainRun stdin).result = 1) ∧
    (∀ stdin e, jsonLoads stdin = .error e → (mainRun stdin).result = .error e) ∧
    (∀ stdin v items e, jsonLoads stdin = .ok v → pyIter v = .ok items →
      (runAll items 0 [] initState).result = .error e →
      (mainRun stdin).result = .error e) := by
  refine ⟨?_, ?_, ?_⟩
  · intro stdin e h
    cases hj : jsonLoads stdin with
    | error e' => simp [mainRun, hj, initState, exitCode]
    | ok v =>
      cases hi : pyIter v with
      | error e' => simp [mainRun, hj, hi, initState, exitCode]
      | ok items =>
        cases hb : (runAll items 0 [] initState).result with
        | ok outs =>
          simp only [mainRun, hj, hi, hb] at h
          exact absurd h (by simp)
        | error e' =>
          have hro := (runAll_eq items 0 [] initState).2.2.1
          simp only [mainRun, hj, hi, hb, exitCode]
          exact ⟨hro, trivial⟩
  · intro stdin e h
    simp [mainRun, h]
  · intro stdin v items e h1 h2 h3
    simp only [mainRun, h1, h2, h3]

theorem C4_witness :
    (mainRun "[\"1/0\"]").state.realOut = "" ∧ exitCode (mainRun "[\"1/0\"]").result = 1 :=
  C4_failure_aborts.1 "[\"1/0\"]" Err.zeroDivisionError (by decide)

/-- C5: when a snippet execution returns normally, `run` has restored the
original standard-output destination by the time it returns: the
redirection to the in-memory buffer is active only for the duration of
that one execution. -/
theorem C5_restores_after_return (code : JValue) (sc : Scope) (st : PState) (out : String)
    (_h : (run code sc st).result = .ok out) :
    (run code sc st).state.target = st.target := by
  rw [run_eq]

theorem C5_witness :
    (run (JValue.str "print(1)") [] initState).state.target = initState.target :=
  C5_restores_after_return (JValue.str "print(1)") [] initState "1\n" (by decide)

/-- C6 counterexample: the snippet `1/0` raises `ZeroDivisionError`, yet
after `run` returns the redirection target is restored to the original —
the `with` statement runs the context manager's exit handler on the
exception path too, so the claim that the design does not restore the
redirection on that path is false. -/
theorem C6_counterexample :
    (run (JValue.str "1/0") [] initState).result = .error Err.zeroDivisionError ∧
    (run (JValue.str "1/0") [] initState).state.target = initState.target := by
  decide

/-- C6 (amended): when a snippet raises during execution, the `with`
block's exit handler still restores the standard-output redirection before
the exception propagates: restoration is performed on the error path as
well. -/
theorem C6_amended_restored_on_error (code : JValue) (sc : Scope) (st : PState) (e : Err)
    (_h : (run code sc st).result = .error e) :
    (run code sc st).state.target = st.target := by
  rw [run_eq]

theorem C6_witness :
    (run (JValue.str "1/0") [] initState).state.target = initState.target :=
  C6_amended_restored_on_error (JValue.str "1/0") [] initState Err.zeroDivisionError (by decide)

/-- C7: the pipeline order is fixed — standard input is read and parsed
before any snippet executes, snippets execute one after another in input
order, and the output JSON is written exactly once, after all snippets
have executed, never interleaved with them. -/
theorem C7_pipeline_order (stdin : String) (outs : List String)
    (h : (mainRun stdin).result = .ok outs) :
    (mainRun stdin).trace =
      [Event.readStdin, Event.parsedInput] ++
        (List.range outs.length).map Event.execSnippet ++ [Event.writeOutput] := by
  cases hj : jsonLoads stdin with
  | error e => simp [mainRun, hj] at h
  | ok v =>
    cases hi : pyIter v with
    | error e => simp [mainRun, hj, hi] at h
    | ok items =>
      cases hb : (runAll items 0 [] initState).result with
      | error e => simp [mainRun, hj, hi, hb] at h
      | ok outs' =>
        have houts : outs' = outs := by
          simp only [mainRun, hj, hi, hb, Except.ok.injEq] at h
          exact h
        have htr := runAll_trace_ok items 0 [] initState outs' hb
        have hlen :=
          (runAllP_ok items [] outs' (((runAll_eq items 0 [] initState).1).symm.trans hb)).1
        simp only [mainRun, hj, hi, hb, htr]
        rw [← houts, hlen, List.range_eq_range']

theorem C7_witness :
    (mainRun "[\"x = 5\", \"print(x)\"]").trace =
      [Event.readStdin, Event.parsedInput] ++
        (List.range (["", "5\n"] : List String).length).map Event.execSnippet ++
        [Event.writeOutput] :=
  C7_pipeline_order "[\"x = 5\", \"print(x)\"]" ["", "5\n"] (by decide)

/-- C8: the driver never validates that the parsed input is an array of
strings: a top-level JSON string is iterated character by character (each
character executed as a snippet), a JSON object iterates over its keys,
and a non-string array element such as `5` passes parsing and fails only
at execution time, inside the first snippet execution. -/
theorem C8_no_input_validation :
    (∀ s : String, pyIter (JValue.str s) =
      .ok (s.toList.map fun c => JValue.str (String.mk [c]))) ∧
    (∀ kvs : List (String × JValue), pyIter (JValue.obj kvs) =
      .ok (kvs.map fun kv => JValue.str kv.1)) ∧
    (mainRun "\"11\"").result = .ok ["", ""] ∧
    (mainRun "\x7b\"1\": 0\x7d").result = .ok [""] ∧
    jsonLoads "[5]" = .ok (JValue.arr [JValue.num 5]) ∧
    (mainRun "[5]").result = .error Err.typeError ∧
    (mainRun "[5]").trace = [Event.readStdin, Event.parsedInput, Event.execSnippet 0] := by
  exact ⟨fun s => rfl, fun kvs => rfl, by decide, by decide, rfl, by decide, by decide⟩

/-- C9: the shared scope starts empty, so the first snippet executes with
no user-defined bindings, and every binding visible to snippet `i` was
created by some earlier snippet `j < i` (the model abstracts away the
interpreter-injected builtins, which the claim excludes). -/
theorem C9_scope_starts_empty :
    (∀ items : List JValue, scopeAt items 0 = []) ∧
    (∀ items i x, (Scope.lookup (scopeAt items i) x).isSome →
      ∃ j, j < i ∧ Scope.lookup (scopeAt items j) x = none ∧
        (Scope.lookup (scopeAt items (j + 1)) x).isSome) := by
  refine ⟨fun items => rfl, ?_⟩
  intro items i x
  induction i with
  | zero =>
    intro h
    simp [scopeAt, Scope.lookup] at h
  | succ n ih =>
    intro h
    by_cases hn : (Scope.lookup (scopeAt items n) x).isSome
    · obtain ⟨j, hj1, hj2, hj3⟩ := ih hn
      exact ⟨j, Nat.lt_succ_of_lt hj1, hj2, hj3⟩
    · exact ⟨n, Nat.lt_succ_self n, Option.not_isSome_iff_eq_none.mp hn, h⟩

theorem C9_witness :
    ∃ j, j < 1 ∧ Scope.lookup (scopeAt [JValue.str "x = 5"] j) "x" = none ∧
      (Scope.lookup (scopeAt [JValue.str "x = 5"] (j + 1)) "x").isSome :=
  C9_scope_starts_empty.2 [JValue.str "x = 5"] 1 "x" (by decide)

/-- C10: snippet printing never reaches the real standard output (the batch
leaves `realOut` untouched), and in a run where all snippets complete the
only bytes the process writes there are the single final JSON serialization
of the captured outputs. -/
theorem C10_only_final_json :
    (∀ items i sc st, (runAll items i sc st).state.realOut = st.realOut) ∧
    (∀ stdin outs, (mainRun stdin).result = .ok outs →
      (mainRun stdin).state.realOut = jsonDumps outs) := by
  refine ⟨fun items i sc st => (runAll_eq items i sc st).2.2.1, ?_⟩
  intro stdin outs h
  cases hj : jsonLoads stdin with
  | error e => simp [mainRun, hj] at h
  | ok v =>
    cases hi : pyIter v with
    | error e => simp [mainRun, hj, hi] at h
    | ok items =>
      cases hb : (runAll items 0 [] initState).result with
      | error e => simp [mainRun, hj, hi, hb] at h
      | ok outs' =>
        have houts : outs' = outs := by
          simp only [mainRun, hj, hi, hb, Except.ok.injEq] at h
          exact h
        have hro : (runAll items 0 [] initState).state.realOut = "" :=
          (runAll_eq items 0 [] initState).2.2.1
        have htg : (runAll items 0 [] initState).state.target = none :=
          (runAll_eq items 0 [] initState).2.2.2
        simp only [mainRun, hj, hi, hb, writeStream, htg, hro, houts]
        exact String.empty_append _

theorem C10_witness :
    (mainRun "[\"print(1)\"]").state.realOut = jsonDumps ["1\n"] :=
  C10_only_final_json.2 "[\"print(1)\"]" ["1\n"] (by decide)

end ExecPy
